import Mathlib

/-!
Verification of the interface-automation engine in src/src/App.jsx:
the element classifier (inferPossibleInteractions), the snapshot builder
(buildDomSnapshot / parseElement), the cursor motion planner
(animateCursorTo) and the interaction executor (handlePerformInteraction).
JavaScript numbers are modelled as exact rationals, DOM nodes as a tree,
and the stateful walk as explicit state passing.
-/

/-- Interaction kinds, mirroring the InteractionType constant of App.jsx. -/
inductive InteractionType where
  | CLICK
  | TYPE
  | DRAG
  | HOVER
  | FOCUS
  | SCROLL
  | SELECT
  | RIGHT_CLICK
  | DBLCLICK
  | WAIT
deriving DecidableEq, Repr

/-- Discriminating tag of a snapshot item: the JS classes ScreenInfo,
ScreenAction and ScreenContainer set this.type to one of three strings. -/
inductive ItemType where
  | INFO
  | ACTION
  | CONTAINER
deriving DecidableEq, Repr

/-- One value and text pair extracted from an option element of a select. -/
structure SelectOpt where
  value : String
  text : String
deriving DecidableEq, Repr

/-- Snapshot item, mirroring the JS ScreenItem class hierarchy as one flat
record: fields that a given variant does not set in JS (undefined there) are
modelled as none or as the empty list.  In particular childIds is
some list only for CONTAINER items, exactly as only ScreenContainer
instances carry a childIds property in the source. -/
structure ScreenItem where
  id : Nat
  x : ℚ := 0
  y : ℚ := 0
  width : ℚ := 0
  height : ℚ := 0
  tagName : String
  textContent : String := ""
  parentId : Option Nat := none
  type : ItemType
  alt : Option Nat := none
  placeholder : Option String := none
  href : Option String := none
  possibleInteractions : List InteractionType := []
  selectOptions : List SelectOpt := []
  childIds : Option (List Nat) := none
deriving DecidableEq, Repr

/-- Per-node data read by the engine from a live DOM element: tag, the
attributes it queries, the layout box from getBoundingClientRect, the
computed-style and class based skip flags, and the own (direct) text.
draggable stands for the JS disjunction el.draggable or the draggable
attribute being "true"; scrollOverflow stands for
scrollHeight greater than clientHeight. -/
structure DomData where
  tagName : String
  typeAttr : Option String := none
  placeholderAttr : Option String := none
  hrefAttr : Option String := none
  valueAttr : Option String := none
  draggable : Bool := false
  scrollOverflow : Bool := false
  fakeCursor : Bool := false
  inPanel : Bool := false
  hidden : Bool := false
  x : ℚ := 0
  y : ℚ := 0
  width : ℚ := 0
  height : ℚ := 0
  ownText : String := ""
deriving DecidableEq, Repr

/-- A DOM element: its own data plus the list of element children
(Array.from(el.children) in the source). -/
inductive Dom where
  | mk (data : DomData) (children : List Dom)

def Dom.data : Dom → DomData
  | .mk d _ => d

def Dom.children : Dom → List Dom
  | .mk _ cs => cs

def Dom.tagName (el : Dom) : String := el.data.tagName

def Dom.typeAttr (el : Dom) : Option String := el.data.typeAttr

def Dom.placeholderAttr (el : Dom) : Option String := el.data.placeholderAttr

def Dom.hrefAttr (el : Dom) : Option String := el.data.hrefAttr

def Dom.valueAttr (el : Dom) : Option String := el.data.valueAttr

def Dom.draggable (el : Dom) : Bool := el.data.draggable

def Dom.scrollOverflow (el : Dom) : Bool := el.data.scrollOverflow

def Dom.fakeCursor (el : Dom) : Bool := el.data.fakeCursor

def Dom.inPanel (el : Dom) : Bool := el.data.inPanel

def Dom.hidden (el : Dom) : Bool := el.data.hidden

def Dom.x (el : Dom) : ℚ := el.data.x

def Dom.y (el : Dom) : ℚ := el.data.y

def Dom.width (el : Dom) : ℚ := el.data.width

def Dom.height (el : Dom) : ℚ := el.data.height

mutual

/-- Model of el.textContent: the concatenation of all text in the subtree
(own text first, then the children in order). -/
def Dom.textContent : Dom → String
  | .mk d cs => d.ownText ++ domTextContentList cs
termination_by structural el => el

/-- Concatenated text of a list of subtrees, in document order. -/
def domTextContentList : List Dom → String
  | [] => ""
  | c :: cs => Dom.textContent c ++ domTextContentList cs
termination_by structural l => l

end

mutual

/-- All OPTION elements of a subtree, the root included, in document order. -/
def optionsInSubtree : Dom → List Dom
  | .mk d cs => (if d.tagName = "OPTION" then [Dom.mk d cs] else []) ++ optionsInList cs
termination_by structural el => el

/-- All OPTION elements of the listed subtrees in document order. -/
def optionsInList : List Dom → List Dom
  | [] => []
  | c :: cs => optionsInSubtree c ++ optionsInList cs
termination_by structural l => l

end

/-- Descendant OPTION elements of one element, modelling querySelectorAll
applied with the option selector (descendants only, not the element
itself). -/
def optionDescendants (el : Dom) : List Dom := optionsInList el.children

/-- Model of the JS toLowerCase call; for the ASCII tag and attribute
names the engine compares, lowering each character agrees with JS. -/
def strToLower (s : String) : String := ⟨s.data.map Char.toLower⟩

/-- Model of the JS trim call: strip leading and trailing whitespace. -/
def strTrim (s : String) : String :=
  ⟨((s.data.dropWhile Char.isWhitespace).reverse.dropWhile Char.isWhitespace).reverse⟩

/-- Model of the JS idiom (x or null): getAttribute yields the attribute
string or null, and an empty string is coerced to null by the or. -/
def orNull : Option String → Option String
  | some "" => none
  | o => o

/-- Classifier of App.jsx: given one node, the ordered list of interactions
it supports.  The JS builds a Set seeded with five base interactions and
conditionally adds TYPE, SELECT, DRAG, SCROLL; since those are pairwise
distinct and absent from the seed, insertion order equals this append
order and Array.from returns exactly this list. -/
def inferPossibleInteractions (el : Dom) : List InteractionType :=
  let tag := strToLower el.tagName
  let typeAttr0 := strToLower (el.typeAttr.getD "")
  let typeAttr := if tag = "input" ∧ typeAttr0 = "" then "text" else typeAttr0
  let possible : List InteractionType :=
    [InteractionType.HOVER, InteractionType.FOCUS, InteractionType.CLICK,
     InteractionType.RIGHT_CLICK, InteractionType.DBLCLICK]
  let possible :=
    if tag = "textarea" then possible ++ [InteractionType.TYPE]
    else if tag = "input" ∧
        typeAttr ∉ ["checkbox", "radio", "button", "submit", "range", "file", "hidden", "image"] then
      possible ++ [InteractionType.TYPE]
    else possible
  let possible := if tag = "select" then possible ++ [InteractionType.SELECT] else possible
  let possible := if el.draggable then possible ++ [InteractionType.DRAG] else possible
  let possible := if el.scrollOverflow then possible ++ [InteractionType.SCROLL] else possible
  possible

/-- Option pairs of a select element: value is the value attribute when
present, else the option text (the DOM value property defaulting rule);
text is the trimmed textContent, as in the source map over the options. -/
def selectOptionsOf (el : Dom) : List SelectOpt :=
  if strToLower el.tagName = "select" then
    (optionDescendants el).map fun o =>
      { value := o.valueAttr.getD (strTrim o.textContent), text := strTrim o.textContent }
  else []

/-- The interactive allow-list of parseElement. -/
def interactiveTags : List String := ["BUTTON", "INPUT", "A", "SELECT", "TEXTAREA"]

/-- The ScreenAction constructed by the interactive branch of parseElement. -/
def mkScreenAction (el : Dom) (parentId : Option Nat) (idv : Nat) : ScreenItem :=
  { id := idv, x := el.x, y := el.y, width := el.width, height := el.height,
    tagName := el.tagName, textContent := strTrim el.textContent, parentId := parentId,
    type := .ACTION,
    placeholder := orNull el.placeholderAttr,
    href := orNull el.hrefAttr,
    possibleInteractions := inferPossibleInteractions el,
    selectOptions := selectOptionsOf el,
    childIds := none }

/-- The ScreenInfo constructed by parseElement; the JS passes baseProps,
which never contains an alt key, so alt is always null. -/
def mkScreenInfo (el : Dom) (parentId : Option Nat) (idv : Nat) : ScreenItem :=
  { id := idv, x := el.x, y := el.y, width := el.width, height := el.height,
    tagName := el.tagName, textContent := strTrim el.textContent, parentId := parentId,
    type := .INFO, childIds := none }

/-- The ScreenContainer constructed by parseElement: the text is cleared
to avoid duplicating child text and the collected child ids are stored. -/
def mkScreenContainer (el : Dom) (parentId : Option Nat) (idv : Nat)
    (childIds : List Nat) : ScreenItem :=
  { id := idv, x := el.x, y := el.y, width := el.width, height := el.height,
    tagName := el.tagName, textContent := "", parentId := parentId,
    type := .CONTAINER, childIds := some childIds }

mutual

/-- Shallow embedding of parseElement of App.jsx.  The JS mutates a shared
idCounter and a shared parsedItems array; here the counter is threaded and
the items pushed by the call (children first, then possibly the own item)
are returned: result = (returned id or null, items pushed, new counter).
The skip checks run before the id is reserved; the id is reserved before
the children are parsed; the zero-size check runs after the children were
parsed and pushed.  Ids start at 1 in buildDomSnapshot, so the JS
truthiness test on a returned child id is exactly a null test. -/
def parseElement : Dom → Option Nat → Nat → Option Nat × List ScreenItem × Nat
  | el@(Dom.mk _ cs), parentId, idCounter =>
    if el.fakeCursor then (none, [], idCounter)
    else if el.inPanel then (none, [], idCounter)
    else if el.hidden then (none, [], idCounter)
    else
      let currentElementId := idCounter
      let res := parseChildren cs currentElementId (idCounter + 1)
      let childIds := res.1
      let childItems := res.2.1
      let counterAfter := res.2.2
      if el.width = 0 ∧ el.height = 0 then
        (none, childItems, counterAfter)
      else
        let textContent := strTrim el.textContent
        if el.tagName ∈ interactiveTags then
          (some currentElementId,
           childItems ++ [mkScreenAction el parentId currentElementId], counterAfter)
        else if cs.length > 0 then
          if childIds.length > 0 then
            (some currentElementId,
             childItems ++ [mkScreenContainer el parentId currentElementId childIds],
             counterAfter)
          else if textContent.length > 0 then
            (some currentElementId,
             childItems ++ [mkScreenInfo el parentId currentElementId], counterAfter)
          else (none, childItems, counterAfter)
        else
          if textContent.length > 0 then
            (some currentElementId,
             childItems ++ [mkScreenInfo el parentId currentElementId], counterAfter)
          else (none, childItems, counterAfter)
termination_by structural el _ _ => el

/-- The for-loop of parseElement over the children: each child is parsed
with the reserved id of the current element as parent, a truthy (non-null)
returned id is appended to childIds, and the items of all children are
pushed in order.  Result = (childIds, items pushed, new counter). -/
def parseChildren : List Dom → Nat → Nat → List Nat × List ScreenItem × Nat
  | [], _, idCounter => ([], [], idCounter)
  | childEl :: rest, parentId, idCounter =>
    let r := parseElement childEl (some parentId) idCounter
    let r2 := parseChildren rest parentId r.2.2
    ((match r.1 with
      | some childItemId => childItemId :: r2.1
      | none => r2.1),
     r.2.1 ++ r2.2.1, r2.2.2)
termination_by structural cs _ _ => cs

end

/-- Model of buildDomSnapshot: parse from the root (document.body) with no
parent and the counter starting at 1; the flat item list is the snapshot. -/
def buildDomSnapshot (body : Dom) : List ScreenItem :=
  (parseElement body none 1).2.1

/-- A point, as the cursor position pair of App.jsx. -/
structure Pt where
  x : ℚ
  y : ℚ
deriving DecidableEq, Repr

/-- Core loop of animateCursorTo in remaining-distance form.  Under exact
real arithmetic, cos (atan2 dy dx) = dx / dist and
sin (atan2 dy dx) = dy / dist, so one else-branch step moves the current
point by speed straight toward the target: the bearing is unchanged and the
remaining Euclidean distance decreases by exactly speed.  The loop state is
therefore fully described by the remaining distance.  cursorRun returns the
remaining distance at each setCursorPos call (0 for the snap branch, which
sets the target itself) and whether the promise resolved; fuel bounds the
number of requestAnimationFrame steps examined, since the JS loop itself
has no bound of its own. -/
def cursorRun (speed : ℚ) : Nat → ℚ → List ℚ × Bool
  | 0, _ => ([], false)
  | fuel + 1, dist =>
    if dist < speed then ([0], true)
    else
      let next := cursorRun speed fuel (dist - speed)
      ((dist - speed) :: next.1, next.2)

/-- The point of the start-to-target segment at remaining distance d,
where d0 is the initial distance from start to target. -/
def posAlong (start target : Pt) (d0 d : ℚ) : Pt :=
  ⟨target.x + d / d0 * (start.x - target.x), target.y + d / d0 * (start.y - target.y)⟩

/-- Model of animateCursorTo: the sequence of cursor positions set during
one animation, plus whether the promise resolved within fuel frames.
d0 is the initial Euclidean distance from start to target, passed
separately so that the walk stays in ℚ; theorems about this function
carry the side condition tying d0 to start and target. -/
def animateCursorTo (start target : Pt) (d0 speed : ℚ) (fuel : Nat) : List Pt × Bool :=
  let r := cursorRun speed fuel d0
  (r.1.map (posAlong start target d0), r.2)

/-- Effect of the SELECT branch of handlePerformInteraction on a select
node: from the list of its option elements, the selected index and the
number of change events dispatched.  The source guards on the tag being
select and on selectOptionValue being truthy (non-empty), finds the first
option with matching value, and only on a match assigns selectedIndex and
dispatches one change event. -/
def performSelect (tagName : String) (options : List SelectOpt)
    (selectedIndex : ℤ) (selectOptionValue : String) : ℤ × Nat :=
  if strToLower tagName = "select" ∧ selectOptionValue ≠ "" then
    match options.findIdx? (fun o => o.value == selectOptionValue) with
    | some matchIndex => ((matchIndex : ℤ), 1)
    | none => (selectedIndex, 0)
  else (selectedIndex, 0)

/-- Observable state operations performed by handlePerformInteraction:
startAuto and stopAuto are the startAutomation and stopAutomation calls
(setting and clearing isAutomating), rebuildSnapshot is the final
buildDomSnapshot call, alertUser is a validation alert issued before any
automation starts, performEffect is a completed interaction dispatch and
errorLogged is the console.error of the catch block. -/
inductive ExecEvent where
  | startAuto
  | stopAuto
  | rebuildSnapshot
  | alertUser
  | performEffect
  | errorLogged
deriving DecidableEq, Repr

/-- Control-flow model of handlePerformInteraction: the ordered list of
observable state operations for one invocation.  selectedItemId none
models the empty selection string (falsy in JS), itemFound models the
domItems.find lookup succeeding, and performThrows models an exception
thrown anywhere inside the try block (scrolling, measuring, the effect
dispatch).  The WAIT branch starts automation, waits, clears automation in
a finally, and returns without rebuilding the snapshot; the element branch
runs the try block, catches and logs any error, then always clears
automation and rebuilds the snapshot.  The model assumes the cursor
animation promise resolves (see cursorRun for the speed caveat). -/
def handlePerformInteraction (selectedInteraction : Option InteractionType)
    (selectedItemId : Option Nat) (itemFound performThrows : Bool) : List ExecEvent :=
  if selectedInteraction = some InteractionType.WAIT then
    [.startAuto, .stopAuto]
  else if selectedItemId.isNone ∨ selectedInteraction.isNone then
    [.alertUser]
  else if !itemFound then
    [.alertUser]
  else
    [.startAuto] ++ (if performThrows then [.errorLogged] else [.performEffect])
      ++ [.stopAuto, .rebuildSnapshot]

/-- The isAutomating flag after a list of state operations has run. -/
def automatingAfter (events : List ExecEvent) : Bool :=
  events.foldl
    (fun b e =>
      match e with
      | .startAuto => true
      | .stopAuto => false
      | _ => b)
    false

/-- Modelled from the spec sentence for id assignment: a fresh,
monotonically increasing identifier is consumed exactly at the point a node
is determined to produce an item.  Items are appended to the output at
production, so under that rule the flat output, read in order, carries the
consecutive ids 1, 2, ..., n. -/
def specIdsConsumedAtProduction (items : List ScreenItem) : Prop :=
  items.map (fun i => i.id) = List.range' 1 items.length

/-- Declared subtype of an input in the words of the spec: the type
attribute, defaulting to plain text when absent. -/
def declaredInputSubtype (el : Dom) : String :=
  match el.typeAttr with
  | none => "text"
  | some t => strToLower t

/-- Example tree for the dangling-parent phenomenon: a visible body whose
zero-size DIV child wraps a visible text paragraph. -/
def exTree9 : Dom :=
  .mk { tagName := "BODY", width := 100, height := 100 }
    [.mk { tagName := "DIV", width := 0, height := 0 }
      [.mk { tagName := "P", width := 10, height := 10, ownText := "hi" } []]]

/-- Example tree for id assignment: a visible DIV whose first child is an
empty invisible-text DIV (produces no item but consumes an id) and whose
second child is a text paragraph. -/
def exTree5 : Dom :=
  .mk { tagName := "DIV", width := 100, height := 100 }
    [.mk { tagName := "DIV", width := 5, height := 5 } [],
     .mk { tagName := "P", width := 10, height := 10, ownText := "a" } []]

/-- Example tree for an interactive node with a classified child: a button
wrapping a text paragraph. -/
def exTree10 : Dom :=
  .mk { tagName := "BUTTON", width := 30, height := 10 }
    [.mk { tagName := "P", width := 10, height := 10, ownText := "x" } []]

/-- Example input element with no declared subtype. -/
def exInput : Dom := .mk { tagName := "INPUT", width := 50, height := 10 } []

/-- Example input element with declared subtype checkbox. -/
def exCheckbox : Dom :=
  .mk { tagName := "INPUT", typeAttr := some "checkbox", width := 20, height := 20 } []

/-- Example zero-size element that still has a classified child. -/
def exZero : Dom :=
  .mk { tagName := "DIV", width := 0, height := 0 }
    [.mk { tagName := "P", width := 10, height := 10, ownText := "z" } []]

/-- Options of the newsletter country select of the fixture page: the
placeholder option has the empty value. -/
def exOpts : List SelectOpt :=
  [{ value := "", text := "--Choose--" }, { value := "us", text := "United States" }]

/-- The container item that the snapshot of exTree5 contains. -/
def exTree5Container : ScreenItem :=
  { id := 1, width := 100, height := 100, tagName := "DIV", textContent := "",
    parentId := none, type := .CONTAINER, childIds := some [3] }

/-- Invariants of one parseElement call: with
res = parseElement el pid c, the counter only grows, every pushed item has
its id in the consumed counter range, ids are pairwise distinct, the
returned id is null or the reserved entry counter, the items whose parentId
equals the callers parentId are exactly the own item (so the returned id),
every pushed item either is the own item or carries a parent reference to a
strictly smaller id reserved inside this call, every CONTAINER item has
empty text and childIds listing exactly the ids of the pushed items whose
parentId is its id, and every non-CONTAINER item has no childIds. -/
structure ElemInv (pid : Option Nat) (c : Nat)
    (res : Option Nat × List ScreenItem × Nat) : Prop where
  counter_le : c ≤ res.2.2
  id_range : ∀ i ∈ res.2.1, c ≤ i.id ∧ i.id < res.2.2
  ids_distinct : res.2.1.Pairwise (fun a b => a.id ≠ b.id)
  ret_none_or : res.1 = none ∨ res.1 = some c
  top_filter : (res.2.1.filter (fun i => i.parentId == pid)).map (fun i => i.id) = res.1.toList
  parent_ref : ∀ i ∈ res.2.1,
    (i.parentId = pid ∧ i.id = c) ∨
    (∃ q, i.parentId = some q ∧ q < i.id ∧ c ≤ q ∧ q < res.2.2)
  container_ok : ∀ x ∈ res.2.1, x.type = ItemType.CONTAINER →
    x.textContent = "" ∧
    x.childIds = some ((res.2.1.filter (fun j => j.parentId == some x.id)).map (fun j => j.id))
  non_container : ∀ x ∈ res.2.1, x.type ≠ ItemType.CONTAINER → x.childIds = none

/-- Invariants of one parseChildren call with parent id p and entry counter
c, in the same sense as ElemInv; ids_filter states that the collected
childIds are exactly the ids of the pushed items whose parentId is p, in
push order. -/
structure ListInv (p : Nat) (c : Nat)
    (res : List Nat × List ScreenItem × Nat) : Prop where
  counter_le : c ≤ res.2.2
  id_range : ∀ i ∈ res.2.1, c ≤ i.id ∧ i.id < res.2.2
  ids_distinct : res.2.1.Pairwise (fun a b => a.id ≠ b.id)
  ids_filter : (res.2.1.filter (fun i => i.parentId == some p)).map (fun i => i.id) = res.1
  parent_ref : ∀ i ∈ res.2.1,
    ∃ q, i.parentId = some q ∧ q < i.id ∧ (q = p ∨ (c ≤ q ∧ q < res.2.2))
  container_ok : ∀ x ∈ res.2.1, x.type = ItemType.CONTAINER →
    x.textContent = "" ∧
    x.childIds = some ((res.2.1.filter (fun j => j.parentId == some x.id)).map (fun j => j.id))
  non_container : ∀ x ∈ res.2.1, x.type ≠ ItemType.CONTAINER → x.childIds = none

theorem cursorRun_done_getLast (s : ℚ) :
    ∀ (fuel : Nat) (d : ℚ), (cursorRun s fuel d).2 = true →
      (cursorRun s fuel d).1.getLast? = some 0 := by
  intro fuel
  induction fuel with
  | zero => intro d h; simp [cursorRun] at h
  | succ n ih =>
      intro d h
      by_cases hd : d < s
      · simp [cursorRun, hd]
      · rw [cursorRun] at h ⊢
        rw [if_neg hd] at h ⊢
        simp only at h ⊢
        have h2 := ih (d - s) h
        cases hl : (cursorRun s n (d - s)).1 with
        | nil => rw [hl] at h2; simp at h2
        | cons a t => rw [hl] at h2; rw [List.getLast?_cons_cons]; exact h2

theorem cursorRun_count (s : ℚ) (hs : 0 < s) :
    ∀ (fuel : Nat) (d : ℚ), 0 ≤ d → ⌊d / s⌋ + 1 ≤ (fuel : ℤ) →
      (cursorRun s fuel d).2 = true ∧
      ((cursorRun s fuel d).1.length : ℤ) = ⌊d / s⌋ + 1 := by
  intro fuel
  induction fuel with
  | zero =>
      intro d hd hf
      have h0 : (0 : ℤ) ≤ ⌊d / s⌋ := Int.floor_nonneg.mpr (div_nonneg hd hs.le)
      norm_num at hf
      omega
  | succ n ih =>
      intro d hd hf
      by_cases hlt : d < s
      · have h0 : ⌊d / s⌋ = 0 :=
          Int.floor_eq_zero_iff.mpr ⟨div_nonneg hd hs.le, (div_lt_one hs).mpr hlt⟩
        rw [cursorRun, if_pos hlt]
        simp [h0]
      · have hds : 0 ≤ d - s := by linarith [not_lt.mp hlt]
        have hfloor : ⌊(d - s) / s⌋ = ⌊d / s⌋ - 1 := by
          rw [sub_div, div_self hs.ne.symm]
          exact_mod_cast Int.floor_sub_int (d / s) 1
        have hf2 : ⌊(d - s) / s⌋ + 1 ≤ (n : ℤ) := by
          rw [hfloor]
          push_cast at hf ⊢
          omega
        have ih2 := ih (d - s) hds hf2
        rw [cursorRun, if_neg hlt]
        refine ⟨ih2.1, ?_⟩
        simp only [List.length_cons]
        push_cast
        rw [ih2.2, hfloor]
        ring

theorem posAlong_zero (start target : Pt) (d0 : ℚ) : posAlong start target d0 0 = target := by
  simp [posAlong]

/-- C2 (amended): for positive speed and enough frames, the animation always
resolves, the last position set is exactly the target, and the number of
positions set is floor(distance / speed) + 1; hence the number of
intermediate positions before the final one is floor(distance / speed),
which equals ceil(distance / speed) - 1 exactly when the speed does not
divide the distance. -/
theorem animateCursorTo_snap_and_count (start target : Pt) (d0 s : ℚ) (fuel : Nat)
    (hs : 0 < s) (hd : 0 ≤ d0)
    (hdist : d0 ^ 2 = (target.x - start.x) ^ 2 + (target.y - start.y) ^ 2)
    (hfuel : ⌊d0 / s⌋ + 1 ≤ (fuel : ℤ)) :
    (animateCursorTo start target d0 s fuel).2 = true ∧
    (animateCursorTo start target d0 s fuel).1.getLast? = some target ∧
    ((animateCursorTo start target d0 s fuel).1.length : ℤ) = ⌊d0 / s⌋ + 1 := by
  have hc := cursorRun_count s hs fuel d0 hd hfuel
  have hlast := cursorRun_done_getLast s fuel d0 hc.1
  refine ⟨hc.1, ?_, ?_⟩
  · rw [animateCursorTo]
    simp [List.getLast?_map, hlast, posAlong_zero]
  · rw [animateCursorTo]
    simp only [List.length_map]
    exact hc.2

/-- C2 counterexample: with distance 10 and speed 10 the else branch fires
once (the distance is not strictly below the speed), emitting one
intermediate position, and the snap branch then emits the target again: one
intermediate position was emitted although ceil(10 / 10) - 1 = 0, so the
claimed count, and the claimed upper bound, are violated. -/
theorem animateCursorTo_exact_division_counterexample :
    (animateCursorTo ⟨0, 0⟩ ⟨10, 0⟩ 10 10 2).2 = true ∧
    (animateCursorTo ⟨0, 0⟩ ⟨10, 0⟩ 10 10 2).1 = [⟨10, 0⟩, ⟨10, 0⟩] ∧
    ((animateCursorTo ⟨0, 0⟩ ⟨10, 0⟩ 10 10 2).1.length : ℤ) - 1 = 1 ∧
    ⌈(10 : ℚ) / 10⌉ - 1 = 0 ∧
    (10 : ℚ) ^ 2 = ((10 : ℚ) - 0) ^ 2 + ((0 : ℚ) - 0) ^ 2 ∧
    (1 : ℤ) ≠ 0 := by
  refine ⟨?_, ?_, ?_, ?_, ?_, ?_⟩ <;>
    norm_num [animateCursorTo, cursorRun, posAlong, Pt.mk.injEq]

theorem animateCursorTo_snap_and_count_witness :
    (animateCursorTo ⟨0, 0⟩ ⟨3, 4⟩ 5 2 10).2 = true ∧
    (animateCursorTo ⟨0, 0⟩ ⟨3, 4⟩ 5 2 10).1.getLast? = some ⟨3, 4⟩ ∧
    ((animateCursorTo ⟨0, 0⟩ ⟨3, 4⟩ 5 2 10).1.length : ℤ) = ⌊(5 : ℚ) / 2⌋ + 1 :=
  animateCursorTo_snap_and_count ⟨0, 0⟩ ⟨3, 4⟩ 5 2 10 (by norm_num) (by norm_num)
    (by norm_num) (by norm_num)

/-- C7: the planner has no speed validation at all: invoked with zero or
negative speed it does not reject the request; the snap condition
dist < speed can never hold (the distance stays positive), so the loop
emits one advanced position per animation frame, for ever, and the promise
never resolves. -/
theorem cursorRun_no_speed_validation (fuel : Nat) (s d : ℚ) (hs : s ≤ 0) (hd : 0 < d) :
    (cursorRun s fuel d).2 = false ∧ (cursorRun s fuel d).1.length = fuel := by
  induction fuel generalizing d with
  | zero => simp [cursorRun]
  | succ n ih =>
      have hlt : ¬ d < s := by linarith
      have h2 := ih (d - s) (by linarith)
      rw [cursorRun, if_neg hlt]
      simp only [List.length_cons]
      exact ⟨h2.1, by rw [h2.2]⟩

theorem cursorRun_no_speed_validation_witness :
    (cursorRun 0 3 10).2 = false ∧ (cursorRun 0 3 10).1.length = 3 :=
  cursorRun_no_speed_validation 3 0 10 (by norm_num) (by norm_num)

/-- C8 (amended): on a select node, a non-empty chosen value that matches
some option makes the first matching option the selected one and dispatches
exactly one change notification; an empty chosen value, or one matching no
option, or a non-select target, leaves the selection unchanged and
dispatches nothing.  In particular a matching option whose value is the
empty string is never selected, because the source guards on the truthiness
of the chosen value before searching. -/
theorem performSelect_spec (tagName : String) (options : List SelectOpt)
    (selectedIndex : ℤ) (chosen : String) :
    (∀ i : Nat, strToLower tagName = "select" → chosen ≠ "" →
      options.findIdx? (fun o => o.value == chosen) = some i →
      performSelect tagName options selectedIndex chosen = ((i : ℤ), 1)) ∧
    ((chosen = "" ∨ options.findIdx? (fun o => o.value == chosen) = none ∨
        strToLower tagName ≠ "select") →
      performSelect tagName options selectedIndex chosen = (selectedIndex, 0)) := by
  constructor
  · intro i h1 h2 h3
    rw [performSelect, if_pos ⟨h1, h2⟩, h3]
  · intro h
    rw [performSelect]
    by_cases hg : strToLower tagName = "select" ∧ chosen ≠ ""
    · rw [if_pos hg]
      rcases h with h | h | h
      · exact absurd h hg.2
      · rw [h]
      · exact absurd hg.1 h
    · rw [if_neg hg]

theorem performSelect_spec_witness :
    performSelect "SELECT" exOpts 0 "us" = ((1 : ℤ), 1) ∧
    performSelect "SELECT" exOpts 5 "zz" = ((5 : ℤ), 0) := by
  have h1 := (performSelect_spec "SELECT" exOpts 0 "us").1 1 (by decide) (by decide) (by decide)
  have h2 := (performSelect_spec "SELECT" exOpts 5 "zz").2 (by decide)
  exact ⟨h1, h2⟩

/-- C8 counterexample: the country list of the fixture page has an option
whose value is the empty string; choosing the empty value matches that
option, yet the source performs no selection change and dispatches no
notification, because the truthiness guard rejects the empty string before
the search. -/
theorem performSelect_empty_value_counterexample :
    (exOpts.any (fun o => o.value == "")) = true ∧
    performSelect "SELECT" exOpts 1 "" = (1, 0) ∧
    (performSelect "SELECT" exOpts 1 "").2 ≠ 1 := by
  refine ⟨by decide, by decide, by decide⟩

/-- C6 (amended): every invocation of the executor ends with the
automating flag cleared, and every element-targeted invocation that starts
automating, including one whose performing step throws, ends by rebuilding
the snapshot; the target-less wait invocation, however, clears the
automating flag but returns without rebuilding the snapshot. -/
theorem handlePerformInteraction_cleanup (i : Option InteractionType)
    (itemId : Option Nat) (found thrown : Bool) :
    automatingAfter (handlePerformInteraction i itemId found thrown) = false ∧
    (ExecEvent.startAuto ∈ handlePerformInteraction i itemId found thrown →
      i ≠ some InteractionType.WAIT →
      ExecEvent.rebuildSnapshot ∈ handlePerformInteraction i itemId found thrown) ∧
    (i = some InteractionType.WAIT →
      ExecEvent.rebuildSnapshot ∉ handlePerformInteraction i itemId found thrown) := by
  rw [handlePerformInteraction]
  by_cases hw : i = some InteractionType.WAIT
  · rw [if_pos hw]
    refine ⟨by decide, ?_, ?_⟩
    · intro _ hne; exact absurd hw hne
    · intro _; decide
  · rw [if_neg hw]
    by_cases hempty : itemId.isNone ∨ i.isNone
    · rw [if_pos hempty]
      refine ⟨by decide, by intro h; simp at h, by intro h; exact absurd h hw⟩
    · rw [if_neg hempty]
      by_cases hfound : found
      · rw [hfound]
        cases thrown <;>
          exact ⟨by decide, fun _ _ => by decide, fun h => absurd h hw⟩
      · have hff : found = false := by simpa using hfound
        subst hff
        rw [if_pos (by decide : (!false) = true)]
        refine ⟨by decide, by intro h; simp at h, by intro h; exact absurd h hw⟩

/-- C6 counterexample: the wait interaction starts and stops automation but
never triggers the snapshot rebuild, so its run reuses the stale snapshot. -/
theorem wait_skips_resnapshot_counterexample :
    handlePerformInteraction (some InteractionType.WAIT) none true false =
      [ExecEvent.startAuto, ExecEvent.stopAuto] ∧
    ExecEvent.startAuto ∈ handlePerformInteraction (some InteractionType.WAIT) none true false ∧
    ExecEvent.rebuildSnapshot ∉ handlePerformInteraction (some InteractionType.WAIT) none true false := by
  refine ⟨by decide, by decide, by decide⟩

theorem type_mem_input (el : Dom) (hin : strToLower el.tagName = "input") :
    InteractionType.TYPE ∈ inferPossibleInteractions el ↔
      (if strToLower (el.typeAttr.getD "") = "" then "text" else strToLower (el.typeAttr.getD "")) ∉
        (["checkbox", "radio", "button", "submit", "range", "file", "hidden", "image"] : List String) := by
  simp only [inferPossibleInteractions, hin]
  norm_num
  split_ifs with h1 h2 h3 <;> simp_all

/-- C3: for a single-line input element, the classifier adds TYPE exactly
when the declared subtype, defaulting to plain text when absent, is not one
of checkbox, radio, button, submit, range, file, hidden, image; an input
with no declared subtype gets TYPE and an input with subtype checkbox
never does. -/
theorem inferPossibleInteractions_type_text (el : Dom)
    (hin : strToLower el.tagName = "input") :
    (InteractionType.TYPE ∈ inferPossibleInteractions el ↔
      declaredInputSubtype el ∉
        (["checkbox", "radio", "button", "submit", "range", "file", "hidden", "image"] : List String)) ∧
    (el.typeAttr = none → InteractionType.TYPE ∈ inferPossibleInteractions el) ∧
    (el.typeAttr = some "checkbox" → InteractionType.TYPE ∉ inferPossibleInteractions el) := by
  have hmem := type_mem_input el hin
  have hiff : InteractionType.TYPE ∈ inferPossibleInteractions el ↔
      declaredInputSubtype el ∉
        (["checkbox", "radio", "button", "submit", "range", "file", "hidden", "image"] : List String) := by
    rw [hmem]
    unfold declaredInputSubtype
    cases hta : el.typeAttr with
    | none => simp only [hta, Option.getD_none]; decide
    | some t =>
        simp only [hta, Option.getD_some]
        by_cases h0 : strToLower t = ""
        · rw [if_pos h0, h0]
          decide
        · rw [if_neg h0]
  refine ⟨hiff, ?_, ?_⟩
  · intro h
    rw [hiff]
    unfold declaredInputSubtype
    rw [h]
    decide
  · intro h
    rw [hiff]
    unfold declaredInputSubtype
    rw [h]
    simp only []
    intro hcon
    exact hcon (by decide)

theorem inferPossibleInteractions_type_text_witness :
    InteractionType.TYPE ∈ inferPossibleInteractions exInput ∧
    InteractionType.TYPE ∉ inferPossibleInteractions exCheckbox :=
  ⟨(inferPossibleInteractions_type_text exInput (by decide)).2.1 rfl,
   (inferPossibleInteractions_type_text exCheckbox (by decide)).2.2 rfl⟩

theorem listInv_nil (p c : Nat) : ListInv p c ([], [], c) := by
  constructor <;> simp

theorem elemInv_skip (pid : Option Nat) (c : Nat) : ElemInv pid c (none, [], c) := by
  constructor <;> simp

theorem listInv_cons (p c : Nat) (hp : p < c)
    (r1 : Option Nat × List ScreenItem × Nat) (r2 : List Nat × List ScreenItem × Nat)
    (h1 : ElemInv (some p) c r1) (h2 : ListInv p r1.2.2 r2) :
    ListInv p c
      ((match r1.1 with
        | some i => i :: r2.1
        | none => r2.1),
       r1.2.1 ++ r2.2.1, r2.2.2) := by
  obtain ⟨r, items1, c1⟩ := r1
  obtain ⟨ids2, items2, c2⟩ := r2
  dsimp only at h1 h2 ⊢
  have e1 : (r, items1, c1).2.2 = c1 := rfl
  have e2 : (ids2, items2, c2).2.2 = c2 := rfl
  constructor
  · exact le_trans h1.counter_le h2.counter_le
  · intro i hi
    rcases List.mem_append.mp hi with h | h
    · have hr := h1.id_range i h
      exact ⟨hr.1, lt_of_lt_of_le hr.2 h2.counter_le⟩
    · have hr := h2.id_range i h
      exact ⟨le_trans h1.counter_le hr.1, hr.2⟩
  · rw [List.pairwise_append]
    refine ⟨h1.ids_distinct, h2.ids_distinct, ?_⟩
    intro a ha b hb
    have ra := h1.id_range a ha
    have rb := h2.id_range b hb
    omega
  · rw [List.filter_append, List.map_append, h1.top_filter, h2.ids_filter]
    cases r <;> simp
  · intro i hi
    rcases List.mem_append.mp hi with h | h
    · rcases h1.parent_ref i h with ⟨hpar, hidc⟩ | ⟨q, hq, hlt, hge, hlt2⟩
      · exact ⟨p, hpar, by omega, Or.inl rfl⟩
      · exact ⟨q, hq, hlt, Or.inr ⟨hge, lt_of_lt_of_le hlt2 h2.counter_le⟩⟩
    · rcases h2.parent_ref i h with ⟨q, hq, hlt, hcase⟩
      rcases hcase with rfl | ⟨hge, hlt2⟩
      · exact ⟨q, hq, hlt, Or.inl rfl⟩
      · exact ⟨q, hq, hlt, Or.inr ⟨le_trans h1.counter_le hge, hlt2⟩⟩
  · intro x hx htype
    rcases List.mem_append.mp hx with h | h
    · obtain ⟨htext, hchild⟩ := h1.container_ok x h htype
      refine ⟨htext, ?_⟩
      have hxid := h1.id_range x h
      have hnil : items2.filter (fun j => j.parentId == some x.id) = [] := by
        rw [List.filter_eq_nil_iff]
        intro j hj
        rcases h2.parent_ref j hj with ⟨q, hq, _, hcase⟩
        simp only [hq, beq_iff_eq, Option.some.injEq]
        intro hqx
        rcases hcase with rfl | ⟨hge, _⟩
        · omega
        · omega
      rw [List.filter_append, List.map_append, hnil]
      simpa using hchild
    · obtain ⟨htext, hchild⟩ := h2.container_ok x h htype
      refine ⟨htext, ?_⟩
      have hxid := h2.id_range x h
      have hnil : items1.filter (fun j => j.parentId == some x.id) = [] := by
        rw [List.filter_eq_nil_iff]
        intro j hj
        have hcle := h1.counter_le
        rcases h1.parent_ref j hj with ⟨hpar, hidc⟩ | ⟨q, hq, _, hge, hlt2⟩
        · simp only [hpar, beq_iff_eq, Option.some.injEq]
          omega
        · simp only [hq, beq_iff_eq, Option.some.injEq]
          omega
      rw [List.filter_append, List.map_append, hnil]
      simpa using hchild
  · intro x hx htype
    rcases List.mem_append.mp hx with h | h
    · exact h1.non_container x h htype
    · exact h2.non_container x h htype

theorem elemInv_of_listInv_none (pid : Option Nat) (c : Nat)
    (hpid : ∀ q, pid = some q → q < c)
    (ids : List Nat) (items : List ScreenItem) (c2 : Nat)
    (hL : ListInv c (c + 1) (ids, items, c2)) :
    ElemInv pid c (none, items, c2) := by
  have e2 : ((ids, items, c2).2.2 : Nat) = c2 := rfl
  have hcle := hL.counter_le
  constructor
  · dsimp only
    omega
  · intro i hi
    have := hL.id_range i hi
    dsimp only at this ⊢
    omega
  · exact hL.ids_distinct
  · exact Or.inl rfl
  · dsimp only
    have hnil : items.filter (fun i => i.parentId == pid) = [] := by
      rw [List.filter_eq_nil_iff]
      intro i hi
      obtain ⟨q, hq, _, hcase⟩ := hL.parent_ref i hi
      simp only [hq]
      cases pid with
      | none => simp
      | some pq =>
          have hpq := hpid pq rfl
          simp only [beq_iff_eq, Option.some.injEq]
          omega
    rw [hnil]
    simp
  · intro i hi
    obtain ⟨q, hq, hlt, hcase⟩ := hL.parent_ref i hi
    dsimp only at hcase ⊢
    rcases hcase with rfl | ⟨h1q, h2q⟩
    · exact Or.inr ⟨q, hq, hlt, le_refl q, by omega⟩
    · exact Or.inr ⟨q, hq, hlt, by omega, by omega⟩
  · exact hL.container_ok
  · exact hL.non_container

theorem elemInv_of_listInv_some (pid : Option Nat) (c : Nat)
    (hpid : ∀ q, pid = some q → q < c)
    (ids : List Nat) (items : List ScreenItem) (c2 : Nat)
    (hL : ListInv c (c + 1) (ids, items, c2))
    (own : ScreenItem) (hid : own.id = c) (hpar : own.parentId = pid)
    (hcont : own.type = ItemType.CONTAINER →
      own.textContent = "" ∧ own.childIds = some ids)
    (hnc : own.type ≠ ItemType.CONTAINER → own.childIds = none) :
    ElemInv pid c (some c, items ++ [own], c2) := by
  have e2 : ((ids, items, c2).2.2 : Nat) = c2 := rfl
  have hcle := hL.counter_le
  have hitems_range : ∀ i ∈ items, c + 1 ≤ i.id ∧ i.id < c2 := by
    intro i hi
    have := hL.id_range i hi
    dsimp only at this
    exact this
  have hpar_ne : ∀ (m : Nat), c ≤ m → (own.parentId == some m) = false := by
    intro m hm
    rw [hpar]
    cases pid with
    | none => simp
    | some pq =>
        have hpq := hpid pq rfl
        simp only [beq_eq_false_iff_ne, ne_eq, Option.some.injEq]
        omega
  constructor
  · dsimp only
    omega
  · intro i hi
    dsimp only
    rcases List.mem_append.mp hi with h | h
    · have := hitems_range i h
      omega
    · rcases List.mem_singleton.mp h with rfl
      omega
  · rw [List.pairwise_append]
    refine ⟨hL.ids_distinct, List.pairwise_singleton _ _, ?_⟩
    intro a ha b hb
    rcases List.mem_singleton.mp hb with rfl
    have := hitems_range a ha
    omega
  · exact Or.inr rfl
  · dsimp only
    rw [List.filter_append]
    have hnil : items.filter (fun i => i.parentId == pid) = [] := by
      rw [List.filter_eq_nil_iff]
      intro i hi
      obtain ⟨q, hq, _, hcase⟩ := hL.parent_ref i hi
      dsimp only at hcase
      simp only [hq]
      cases pid with
      | none => simp
      | some pq =>
          have hpq := hpid pq rfl
          simp only [beq_iff_eq, Option.some.injEq]
          omega
    rw [hnil]
    have : (own.parentId == pid) = true := by rw [hpar]; exact beq_self_eq_true pid
    simp [List.filter, this, hid]
  · intro i hi
    rcases List.mem_append.mp hi with h | h
    · obtain ⟨q, hq, hlt, hcase⟩ := hL.parent_ref i h
      dsimp only at hcase ⊢
      rcases hcase with rfl | ⟨h1q, h2q⟩
      · exact Or.inr ⟨q, hq, hlt, le_refl q, by omega⟩
      · exact Or.inr ⟨q, hq, hlt, by omega, by omega⟩
    · rcases List.mem_singleton.mp h with rfl
      exact Or.inl ⟨hpar, hid⟩
  · intro x hx htype
    dsimp only
    rcases List.mem_append.mp hx with h | h
    · obtain ⟨htext, hchild⟩ := hL.container_ok x h htype
      refine ⟨htext, ?_⟩
      rw [List.filter_append]
      have hxr := hitems_range x h
      have hxc : c ≤ x.id := by omega
      have hfalse := hpar_ne x.id hxc
      have hone : List.filter (fun j => j.parentId == some x.id) [own] = [] := by
        simp [List.filter, hfalse]
      rw [hone]
      dsimp only at hchild
      simpa using hchild
    · rcases List.mem_singleton.mp h with rfl
      obtain ⟨htext, hchild⟩ := hcont htype
      refine ⟨htext, ?_⟩
      rw [List.filter_append]
      have hoc : c ≤ x.id := by omega
      have hfalse := hpar_ne x.id hoc
      have hone : List.filter (fun j => j.parentId == some x.id) [x] = [] := by
        simp [List.filter, hfalse]
      rw [hone]
      have hmain := hL.ids_filter
      dsimp only at hmain
      rw [hid, List.append_nil, hmain, hchild]
  · intro x hx htype
    rcases List.mem_append.mp hx with h | h
    · exact hL.non_container x h htype
    · rcases List.mem_singleton.mp h with rfl
      exact hnc htype

theorem parseChildren_inv_aux (cs : List Dom) :
    ∀ (p c : Nat), p < c →
      (∀ el ∈ cs, ∀ (pid : Option Nat) (cc : Nat),
        (∀ q, pid = some q → q < cc) → ElemInv pid cc (parseElement el pid cc)) →
      ListInv p c (parseChildren cs p c) := by
  induction cs with
  | nil =>
      intro p c hp _
      exact listInv_nil p c
  | cons ch rest ih =>
      intro p c hp H
      have h1 : ElemInv (some p) c (parseElement ch (some p) c) := by
        apply H ch (List.mem_cons_self ch rest) (some p) c
        intro q hq
        injection hq with hq2
        omega
      have hp1 : p < (parseElement ch (some p) c).2.2 :=
        lt_of_lt_of_le hp h1.counter_le
      have h2 : ListInv p (parseElement ch (some p) c).2.2
          (parseChildren rest p (parseElement ch (some p) c).2.2) :=
        ih p _ hp1 (fun el hel => H el (List.mem_cons_of_mem ch hel))
      exact listInv_cons p c hp _ _ h1 h2

theorem parseElement_inv_aux : ∀ (n : Nat) (el : Dom), sizeOf el ≤ n →
    ∀ (pid : Option Nat) (c : Nat), (∀ q, pid = some q → q < c) →
    ElemInv pid c (parseElement el pid c) := by
  intro n
  induction n with
  | zero =>
      intro el hle
      exfalso
      obtain ⟨d, cs⟩ := el
      simp [Dom.mk.sizeOf_spec] at hle
  | succ n ih =>
      intro el hle pid c hpid
      obtain ⟨d, cs⟩ := el
      have hch : ∀ ch ∈ cs, ∀ (pid2 : Option Nat) (c2 : Nat),
          (∀ q, pid2 = some q → q < c2) → ElemInv pid2 c2 (parseElement ch pid2 c2) := by
        intro ch hmem
        apply ih ch
        have h1 : sizeOf ch < sizeOf cs := List.sizeOf_lt_of_mem hmem
        have h2 : sizeOf (Dom.mk d cs) = 1 + sizeOf d + sizeOf cs := by
          simp [Dom.mk.sizeOf_spec]
        omega
      have hL := parseChildren_inv_aux cs c (c + 1) (Nat.lt_succ_self c) hch
      rw [parseElement]
      by_cases hfc : (Dom.mk d cs).fakeCursor
      · rw [if_pos hfc]; exact elemInv_skip pid c
      rw [if_neg hfc]
      by_cases hpn : (Dom.mk d cs).inPanel
      · rw [if_pos hpn]; exact elemInv_skip pid c
      rw [if_neg hpn]
      by_cases hh : (Dom.mk d cs).hidden
      · rw [if_pos hh]; exact elemInv_skip pid c
      rw [if_neg hh]
      rcases hpc : parseChildren cs c (c + 1) with ⟨ids1, items1, cn⟩
      rw [hpc] at hL
      dsimp only
      rw [hpc]
      dsimp only
      by_cases hz : (Dom.mk d cs).width = 0 ∧ (Dom.mk d cs).height = 0
      · rw [if_pos hz]
        exact elemInv_of_listInv_none pid c hpid ids1 items1 cn hL
      rw [if_neg hz]
      by_cases hint : (Dom.mk d cs).tagName ∈ interactiveTags
      · rw [if_pos hint]
        exact elemInv_of_listInv_some pid c hpid ids1 items1 cn hL
          (mkScreenAction (Dom.mk d cs) pid c) rfl rfl
          (by intro h; simp [mkScreenAction] at h) (fun _ => rfl)
      rw [if_neg hint]
      by_cases hcs : cs.length > 0
      · rw [if_pos hcs]
        by_cases hci : ids1.length > 0
        · rw [if_pos hci]
          exact elemInv_of_listInv_some pid c hpid ids1 items1 cn hL
            (mkScreenContainer (Dom.mk d cs) pid c ids1) rfl rfl
            (fun _ => ⟨rfl, rfl⟩) (fun hne => absurd rfl hne)
        rw [if_neg hci]
        by_cases ht : (strTrim (Dom.textContent (Dom.mk d cs))).length > 0
        · rw [if_pos ht]
          exact elemInv_of_listInv_some pid c hpid ids1 items1 cn hL
            (mkScreenInfo (Dom.mk d cs) pid c) rfl rfl
            (by intro h; simp [mkScreenInfo] at h) (fun _ => rfl)
        · rw [if_neg ht]
          exact elemInv_of_listInv_none pid c hpid ids1 items1 cn hL
      · rw [if_neg hcs]
        by_cases ht : (strTrim (Dom.textContent (Dom.mk d cs))).length > 0
        · rw [if_pos ht]
          exact elemInv_of_listInv_some pid c hpid ids1 items1 cn hL
            (mkScreenInfo (Dom.mk d cs) pid c) rfl rfl
            (by intro h; simp [mkScreenInfo] at h) (fun _ => rfl)
        · rw [if_neg ht]
          exact elemInv_of_listInv_none pid c hpid ids1 items1 cn hL

theorem parseElement_inv (el : Dom) (pid : Option Nat) (c : Nat)
    (hpid : ∀ q, pid = some q → q < c) :
    ElemInv pid c (parseElement el pid c) :=
  parseElement_inv_aux (sizeOf el) el (le_refl _) pid c hpid

theorem parseChildren_inv (cs : List Dom) (p c : Nat) (hp : p < c) :
    ListInv p c (parseChildren cs p c) :=
  parseChildren_inv_aux cs p c hp
    (fun el _ pid cc hq => parseElement_inv el pid cc hq)

/-- C1: every item of one snapshot build has an id that is unique within
that snapshot, and a node whose bounding box has both width and height zero
never produces an item, even when it has classified children: its call
returns null and no pushed item carries its reserved id. -/
theorem snapshot_ids_unique_and_zero_size (root el : Dom) (pid : Option Nat) (c : Nat) :
    (buildDomSnapshot root).Pairwise (fun a b => a.id ≠ b.id) ∧
    (el.width = 0 → el.height = 0 →
      (parseElement el pid c).1 = none ∧
      ∀ i ∈ (parseElement el pid c).2.1, i.id ≠ c) := by
  constructor
  · exact (parseElement_inv root none 1 (by intro q hq; cases hq)).ids_distinct
  · intro hw hh
    obtain ⟨d, cs⟩ := el
    rw [parseElement]
    by_cases hfc : (Dom.mk d cs).fakeCursor
    · rw [if_pos hfc]
      exact ⟨rfl, by simp⟩
    rw [if_neg hfc]
    by_cases hpn : (Dom.mk d cs).inPanel
    · rw [if_pos hpn]
      exact ⟨rfl, by simp⟩
    rw [if_neg hpn]
    by_cases hhd : (Dom.mk d cs).hidden
    · rw [if_pos hhd]
      exact ⟨rfl, by simp⟩
    rw [if_neg hhd]
    have hL := parseChildren_inv cs c (c + 1) (Nat.lt_succ_self c)
    rcases hpc : parseChildren cs c (c + 1) with ⟨ids1, items1, cn⟩
    rw [hpc] at hL
    dsimp only
    rw [hpc]
    dsimp only
    rw [if_pos ⟨hw, hh⟩]
    refine ⟨rfl, ?_⟩
    intro i hi
    have hr := hL.id_range i hi
    dsimp only at hr
    omega

theorem snapshot_ids_unique_and_zero_size_witness :
    (buildDomSnapshot exTree9).Pairwise (fun a b => a.id ≠ b.id) ∧
    (parseElement exZero none 1).1 = none ∧
    ∀ i ∈ (parseElement exZero none 1).2.1, i.id ≠ 1 := by
  have h := snapshot_ids_unique_and_zero_size exTree9 exZero none 1
  exact ⟨h.1, (h.2 rfl rfl).1, (h.2 rfl rfl).2⟩

/-- C4: every CONTAINER item of a snapshot has empty text, and its childIds
are exactly the ids of the snapshot items whose parentId equals the
container id, read off the snapshot in order — that is, the ids of its
classified direct children in encounter order. -/
theorem container_childIds_exact (root : Dom) (x : ScreenItem)
    (hx : x ∈ buildDomSnapshot root) (htype : x.type = ItemType.CONTAINER) :
    x.textContent = "" ∧
    x.childIds = some (((buildDomSnapshot root).filter
      (fun j => j.parentId == some x.id)).map (fun j => j.id)) :=
  (parseElement_inv root none 1 (by intro q hq; cases hq)).container_ok x hx htype

theorem container_childIds_exact_witness :
    exTree5Container.textContent = "" ∧
    exTree5Container.childIds = some (((buildDomSnapshot exTree5).filter
      (fun j => j.parentId == some exTree5Container.id)).map (fun j => j.id)) :=
  container_childIds_exact exTree5 exTree5Container (by decide) (by decide)

/-- C5 counterexample: the snapshot of exTree5 lists ids 3 then 1, not the
consecutive production-order ids 1 then 2 that a counter consumed exactly
at item production would give: the parent reserved its id before its
children were parsed, and the invisible empty DIV consumed id 2 without
producing any item. -/
theorem ids_consumed_at_production_counterexample :
    (buildDomSnapshot exTree5).map (fun i => i.id) = [3, 1] ∧
    ¬ specIdsConsumedAtProduction (buildDomSnapshot exTree5) := by
  constructor
  · decide
  · unfold specIdsConsumedAtProduction
    decide

/-- C5 (amended): the builder reserves the identifier when a node is first
visited, before recursing into its children, and the counter is consumed
even by visited nodes that end up producing no item.  Observable
consequences proved: every parent reference points to a strictly smaller
id, and every container id is strictly smaller than each of its childIds.
The walk is a pure function of the tree, so the assignment is
deterministic for a given tree shape and traversal order. -/
theorem id_reservation_preorder (root : Dom) (i : ScreenItem)
    (hi : i ∈ buildDomSnapshot root) :
    (∀ q, i.parentId = some q → q < i.id) ∧
    (∀ l, i.childIds = some l → ∀ k ∈ l, i.id < k) := by
  have hinv := parseElement_inv root none 1 (by intro q hq; cases hq)
  constructor
  · intro q hq
    rcases hinv.parent_ref i hi with ⟨hpar, _⟩ | ⟨q2, hq2, hlt, _, _⟩
    · rw [hpar] at hq
      cases hq
    · rw [hq2] at hq
      injection hq with he
      omega
  · intro l hl k hk
    by_cases htype : i.type = ItemType.CONTAINER
    · obtain ⟨_, hchild⟩ := hinv.container_ok i hi htype
      rw [hl] at hchild
      injection hchild with hlist
      rw [hlist] at hk
      obtain ⟨j, hj, hkid⟩ := List.mem_map.mp hk
      have hjf := List.mem_filter.mp hj
      have hpar : j.parentId = some i.id := by simpa using hjf.2
      rcases hinv.parent_ref j hjf.1 with ⟨hp2, _⟩ | ⟨q2, hq2, hlt, _, _⟩
      · rw [hp2] at hpar
        cases hpar
      · rw [hq2] at hpar
        injection hpar with he
        omega
    · have hnc := hinv.non_container i hi htype
      rw [hl] at hnc
      cases hnc

theorem id_reservation_preorder_witness :
    exTree5Container.childIds = some [3] ∧ exTree5Container.id < 3 := by
  have h := id_reservation_preorder exTree5 exTree5Container (by decide)
  exact ⟨by decide, h.2 [3] (by decide) 3 (by decide)⟩

/-- C9: dangling parent references exist: in the snapshot of exTree9 the
paragraph item carries parentId 2, the id reserved for the zero-size DIV
wrapper, while no item of that snapshot has id 2 — the wrapper reserved
its id before recursing, its child was classified with that id as parent,
and the zero-size rule then rejected the wrapper itself. -/
theorem dangling_parent_reference :
    (buildDomSnapshot exTree9).map (fun i => (i.id, i.parentId)) =
      [(3, some 2), (1, none)] ∧
    (buildDomSnapshot exTree9).any (fun i => i.parentId == some 2) = true ∧
    (buildDomSnapshot exTree9).all (fun i => i.id != 2) = true := by
  refine ⟨by decide, by decide, by decide⟩

/-- C10: an interactive node that passes the skip and zero-size checks
still parses all of its children and pushes their items before its own
ScreenAction; the classified direct children are exactly the pushed items
whose parentId is the reserved action id, and their collected ids are
discarded: the ScreenAction records no childIds. -/
theorem action_children_kept_childIds_discarded (el : Dom) (pid : Option Nat) (c : Nat)
    (h1 : el.fakeCursor = false) (h2 : el.inPanel = false) (h3 : el.hidden = false)
    (h4 : ¬(el.width = 0 ∧ el.height = 0)) (h5 : el.tagName ∈ interactiveTags) :
    parseElement el pid c =
      (some c, (parseChildren el.children c (c + 1)).2.1 ++ [mkScreenAction el pid c],
        (parseChildren el.children c (c + 1)).2.2) ∧
    (mkScreenAction el pid c).type = ItemType.ACTION ∧
    (mkScreenAction el pid c).childIds = none ∧
    ((parseChildren el.children c (c + 1)).2.1.filter
        (fun j => j.parentId == some c)).map (fun j => j.id) =
      (parseChildren el.children c (c + 1)).1 := by
  obtain ⟨d, cs⟩ := el
  refine ⟨?_, rfl, rfl, ?_⟩
  · rw [parseElement]
    rw [if_neg (by simp [h1]), if_neg (by simp [h2]), if_neg (by simp [h3])]
    dsimp only
    rw [if_neg h4, if_pos h5]
    rfl
  · have hL := parseChildren_inv cs c (c + 1) (Nat.lt_succ_self c)
    exact hL.ids_filter

theorem action_children_kept_childIds_discarded_witness :
    parseElement exTree10 none 1 =
      (some 1, (parseChildren exTree10.children 1 2).2.1 ++ [mkScreenAction exTree10 none 1],
        (parseChildren exTree10.children 1 2).2.2) ∧
    (mkScreenAction exTree10 none 1).type = ItemType.ACTION ∧
    (mkScreenAction exTree10 none 1).childIds = none ∧
    ((parseChildren exTree10.children 1 2).2.1.filter
        (fun j => j.parentId == some 1)).map (fun j => j.id) =
      (parseChildren exTree10.children 1 2).1 :=
  action_children_kept_childIds_discarded exTree10 none 1 rfl rfl rfl
    (by decide) (by decide)
